import Mathlib

/-!
Verification development for the Krems Obsidian publisher plugin
(`src/main.ts` and its earlier revisions).

The plugin orchestrates external processes (git, the krems preview binary)
behind button handlers.  We shallow-embed the orchestration logic: every
handler becomes a pure Lean function from its configuration inputs, an
abstract file-system snapshot, and the outcomes of the external commands it
awaits, to the list of observable events it produces (commands executed,
feedback messages shown, console log lines, network requests, file-system
mutations, settings persistence).  UI rendering, button enable/disable
state and the host plugin API are out of scope, as in the specification.

External command results arrive as oracle inputs (`ExecOutcome`): the
embedding never guesses what git prints; it only propagates what it is
handed, exactly as the TypeScript callbacks do.
-/

/-- Feedback classification used by the modal's `set*Feedback` helpers
(`'status' | 'success' | 'error' | 'log'`). -/
inductive FeedbackType
  | status
  | success
  | error
  | log
deriving DecidableEq, Repr

/-- Observable effects of a handler run: shell invocations, user-facing
feedback, console logging, network requests, file-system mutations and
settings persistence (`saveSettings`). -/
inductive Event
  | feedback (msg : String) (ty : FeedbackType)
  | consoleError (msg : String)
  | consoleWarn (msg : String)
  | execCmd (cmd : String) (cwd : String)
  | netRequest (url : String)
  | fsWrite (path : String)
  | fsMkdir (path : String)
  | fsRemove (path : String)
  | chmod (path : String)
  | persist (value : String)
deriving DecidableEq, Repr

/-- Raw outcome of `child_process.exec` for one command: `error` is
`some message` when the process could not be launched or exited non-zero
(Node's `error.message`), and the two captured streams are raw
(untrimmed). -/
structure ExecOutcome where
  error : Option String
  stdout : String
  stderr : String
deriving DecidableEq, Repr

/-- The value `execShellCommand` resolves with: both streams trimmed. -/
structure CmdResult where
  stdout : String
  stderr : String
deriving DecidableEq, Repr

/-- The value `execShellCommand` rejects with (the `reject({...})` object;
`originalError` is not modelled beyond `message`). -/
structure CmdFailure where
  message : String
  stdout : String
  stderr : String
deriving DecidableEq, Repr

/-- A file-system entry as seen through the vault adapter: a file, or a
folder together with the counts returned by `adapter.list` (number of
files and of sub-folders). -/
inductive FsNode
  | file
  | folder (numFiles numFolders : Nat)
deriving DecidableEq, Repr

/-- Abstract vault-adapter snapshot: `stat` returns `none` when the path
does not exist (`adapter.exists` is `(stat p).isSome`). -/
structure Fs where
  stat : String → Option FsNode

/-- `adapter.writeBinary` makes the path an existing file. -/
def Fs.withFile (fs : Fs) (p : String) : Fs :=
  ⟨fun q => if q = p then some FsNode.file else fs.stat q⟩

/-- `adapter.mkdir` makes the path an existing empty folder. -/
def Fs.withFolder (fs : Fs) (p : String) : Fs :=
  ⟨fun q => if q = p then some (FsNode.folder 0 0) else fs.stat q⟩

/-! ### String helpers

The JavaScript string primitives the source uses (`trim`, `includes`,
`startsWith`, `endsWith`, `substring`, `split`) are embedded as
structurally recursive functions over `List Char` so that every claim can
be evaluated on concrete inputs by the kernel. -/

/-- JS `String.prototype.trim` (on the ASCII whitespace the shelled tools
actually produce): drop leading and trailing whitespace. -/
def strTrim (s : String) : String :=
  String.mk (((s.data.dropWhile Char.isWhitespace).reverse.dropWhile Char.isWhitespace).reverse)

/-- JS `a.startsWith(b)`. -/
def strStartsWith (s pre : String) : Bool :=
  pre.data.isPrefixOf s.data

/-- JS `a.endsWith(b)`. -/
def strEndsWith (s suf : String) : Bool :=
  suf.data.isSuffixOf s.data

/-- JS `a.substring(n)` (drop the first `n` characters). -/
def strDrop (s : String) (n : Nat) : String :=
  String.mk (s.data.drop n)

/-- Auxiliary for `strIncludes`: does `pat` occur in the char list? -/
def listIncludesAux (pat : List Char) : List Char → Bool
  | [] => pat.isEmpty
  | c :: rest => pat.isPrefixOf (c :: rest) || listIncludesAux pat rest

/-- JS `a.includes(b)`: substring containment. -/
def strIncludes (s pat : String) : Bool :=
  listIncludesAux pat.data s.data

/-- Auxiliary for `splitPath` / `pathDirname`: split a char list on `/`,
keeping empty segments (the semantics of JS `s.split('/')`). -/
def splitSlashAux : List Char → List Char → List String
  | [], cur => [String.mk cur.reverse]
  | c :: rest, cur =>
      if c = '/' then String.mk cur.reverse :: splitSlashAux rest []
      else splitSlashAux rest (c :: cur)

/-- Non-empty path segments of a string. -/
def splitPath (s : String) : List String :=
  (splitSlashAux s.data []).filter (fun seg => seg ≠ "")

/-- Segment normalisation of Node's `path.posix` (`.` removed, `..` pops a
segment; above the root of an absolute path `..` is dropped, in a relative
path leading `..` segments are kept). `acc` holds processed segments in
reverse. -/
def normSegsAux (isAbs : Bool) : List String → List String → List String
  | [], acc => acc.reverse
  | seg :: rest, acc =>
      if seg = "." then normSegsAux isAbs rest acc
      else if seg = ".." then
        match acc with
        | [] => if isAbs then normSegsAux isAbs rest [] else normSegsAux isAbs rest [".."]
        | top :: below =>
            if top = ".." then normSegsAux isAbs rest (".." :: top :: below)
            else normSegsAux isAbs rest below
      else normSegsAux isAbs rest (seg :: acc)

/-- Join a segment list with `/`. -/
def joinSegs : List String → String
  | [] => ""
  | [s] => s
  | s :: rest => s ++ "/" ++ joinSegs rest

/-- Node `path.join(a, b)` (posix, normalising `.` and `..`; trailing-slash
preservation is not modelled — no handler behaviour depends on it). -/
def pathJoin (a b : String) : String :=
  let isAbs := strStartsWith a "/"
  let body := joinSegs (normSegsAux isAbs (splitPath a ++ splitPath b) [])
  if isAbs then "/" ++ body
  else if body = "" then "." else body

/-- Node `path.dirname` (textual: everything before the last `/`). -/
def pathDirname (p : String) : String :=
  match (splitSlashAux p.data []).dropLast with
  | [] => "."
  | [""] => "/"
  | segs => joinSegs segs

/-- The commit-message sanitisation `commitMessage.replace(/"/g, '\\"')`:
a global single-character regex replace is exactly a character-wise
substitution of `"` by `\"`. -/
def escapeQuoteChars : List Char → List Char
  | [] => []
  | c :: rest =>
      if c = '"' then '\\' :: '"' :: escapeQuoteChars rest
      else c :: escapeQuoteChars rest

/-- `commitMessage.replace(/"/g, '\\"')` on strings. -/
def sanitizeCommitMessage (s : String) : String :=
  String.mk (escapeQuoteChars s.data)

/-! ### Command Runner (`KremsObsidianPlugin.execShellCommand`)

`src/main.ts` lines 64-87.  Environment-override merging is accepted
verbatim by `exec` and never observed by the handlers, so it is not
modelled; messages are reproduced exactly. -/

/-- `execShellCommand(command, cwd, customEnv?, commandForDisplay?)`.
Returns the resolved/rejected value together with the events the call
produces (the `exec` invocation itself and its console logging).  The
display command defaults to the command. -/
def execShellCommand (command displayCmd cwd : String) (out : ExecOutcome) :
    Except CmdFailure CmdResult × List Event :=
  let result : CmdResult := { stdout := strTrim out.stdout, stderr := strTrim out.stderr }
  match out.error with
  | some errMsg =>
      (Except.error { message := "Command failed: " ++ displayCmd ++ ". Error: " ++ errMsg,
                      stdout := result.stdout, stderr := result.stderr },
       [Event.execCmd command cwd,
        Event.consoleError ("Command failed: " ++ displayCmd ++ "\nError: " ++ errMsg ++
          "\nStdout: " ++ result.stdout ++ "\nStderr: " ++ result.stderr)])
  | none =>
      (Except.ok result,
       Event.execCmd command cwd ::
         (if result.stderr ≠ "" then
            [Event.consoleWarn ("Command successful but stderr present: " ++ displayCmd ++
              "\nStderr: " ++ result.stderr)]
          else []))

/-! ### Trace projections -/

/-- The shell commands a trace executed, in order. -/
def execCmds (t : List Event) : List String :=
  t.filterMap (fun e => match e with
    | Event.execCmd c _ => some c
    | _ => none)

/-- The events of a trace that are not shell invocations: everything shown
to the user or written to logs or storage. -/
def nonExecEvents (t : List Event) : List Event :=
  t.filter (fun e => match e with
    | Event.execCmd _ _ => false
    | _ => true)

/-- The values a trace persisted via `saveSettings`. -/
def persistedValues (t : List Event) : List String :=
  t.filterMap (fun e => match e with
    | Event.persist v => some v
    | _ => none)

/-- The network requests a trace issued. -/
def netRequests (t : List Event) : List String :=
  t.filterMap (fun e => match e with
    | Event.netRequest u => some u
    | _ => none)

/-- The file-system writes (`writeBinary`) a trace performed. -/
def fsWrites (t : List Event) : List String :=
  t.filterMap (fun e => match e with
    | Event.fsWrite p => some p
    | _ => none)

/-! ### Binary Provisioner (`getKremsBinaryName`, `getKremsBinaryDir`,
`ensureKremsBinary`), `src/main.ts` lines 89-168. -/

/-- Platform-specific release asset name; `""` marks an unsupported
platform. -/
def getKremsBinaryName (platform : String) : String :=
  if platform = "win32" then "krems-windows-amd64.exe"
  else if platform = "darwin" then "krems-darwin-amd64"
  else if platform = "linux" then "krems-linux-amd64"
  else ""

/-- `path.join(configDir, "plugins", manifestId, "bin")`. -/
def getKremsBinaryDir (configDir manifestId : String) : String :=
  pathJoin (pathJoin (pathJoin configDir "plugins") manifestId) "bin"

/-- Oracle for the effects `ensureKremsBinary` awaits: whether
`fs.chmodSync` succeeds (with the thrown message when not) and the
`requestUrl` response (`none` = transport error with message
`netErrMsg`, `some status` = HTTP status). -/
structure ProvisionEnv where
  chmodOk : Bool
  chmodErrMsg : String
  response : Option Nat
  netErrMsg : String
deriving Repr

/-- What a provisioning run yields: the returned path (or `null`), the
events, and the file system afterwards. -/
structure ProvisionResult where
  result : Option String
  events : List Event
  fsAfter : Fs

/-- `ensureKremsBinary(feedbackUpdater)`. -/
def ensureKremsBinary (platform configDir manifestId : String) (fs : Fs)
    (env : ProvisionEnv) : ProvisionResult :=
  let binaryName := getKremsBinaryName platform
  if binaryName = "" then
    { result := none,
      events := [Event.feedback "Unsupported operating system for Krems download." FeedbackType.error],
      fsAfter := fs }
  else
    let binaryDir := getKremsBinaryDir configDir manifestId
    let binaryPath := pathJoin binaryDir binaryName
    let ev0 := [Event.persist binaryPath]
    if (fs.stat binaryPath).isSome then
      let ev1 := ev0 ++ [Event.feedback "Krems binary already downloaded." FeedbackType.status]
      if platform = "win32" then
        { result := some binaryPath, events := ev1, fsAfter := fs }
      else if env.chmodOk then
        { result := some binaryPath, events := ev1 ++ [Event.chmod binaryPath], fsAfter := fs }
      else
        { result := none,
          events := ev1 ++ [Event.chmod binaryPath,
            Event.consoleError "Failed to chmod existing binary:",
            Event.feedback "Found Krems binary, but failed to set executable permission. Please check manually." FeedbackType.error],
          fsAfter := fs }
    else
      let ev1 := ev0 ++ [Event.feedback ("Downloading Krems for " ++ platform ++ "...") FeedbackType.status]
      let needMkdir := (fs.stat binaryDir).isNone
      let ev2 := ev1 ++ (if needMkdir then [Event.fsMkdir binaryDir] else [])
      let fs1 := if needMkdir then fs.withFolder binaryDir else fs
      let downloadUrl := "https://github.com/mreider/krems/releases/latest/download/" ++ binaryName
      let ev3 := ev2 ++ [Event.netRequest downloadUrl]
      match env.response with
      | none =>
          { result := none,
            events := ev3 ++ [Event.consoleError ("Krems download error: " ++ env.netErrMsg),
              Event.feedback ("Failed to download Krems: " ++ env.netErrMsg) FeedbackType.error],
            fsAfter := fs1 }
      | some status =>
          if status ≠ 200 then
            let m := "Failed to download Krems: Server responded with " ++ toString status
            { result := none,
              events := ev3 ++ [Event.consoleError ("Krems download error: " ++ m),
                Event.feedback ("Failed to download Krems: " ++ m) FeedbackType.error],
              fsAfter := fs1 }
          else
            let fs2 := fs1.withFile binaryPath
            let ev4 := ev3 ++ [Event.fsWrite binaryPath,
              Event.feedback "Krems downloaded successfully." FeedbackType.status]
            if platform = "win32" then
              { result := some binaryPath, events := ev4, fsAfter := fs2 }
            else
              let ev5 := ev4 ++ [Event.feedback "Setting executable permissions..." FeedbackType.status,
                Event.chmod binaryPath]
              if env.chmodOk then
                { result := some binaryPath,
                  events := ev5 ++ [Event.feedback "Permissions set." FeedbackType.status],
                  fsAfter := fs2 }
              else
                { result := none,
                  events := ev5 ++ [Event.consoleError ("Krems download error: " ++ env.chmodErrMsg),
                    Event.feedback ("Failed to download Krems: " ++ env.chmodErrMsg) FeedbackType.error],
                  fsAfter := fs2 }

/-! ### Repository Initializer (`ActionModal.checkIfDirIsEmpty` and the
`initButton` click handler), `src/main.ts` lines 184-299. -/

/-- `checkIfDirIsEmpty(dirPath)`: true exactly when the path exists, is a
folder, and `adapter.list` reports no files and no folders; `false` for a
missing path, a file, or on adapter error. -/
def checkIfDirIsEmpty (fs : Fs) (dirPath : String) : Bool :=
  match fs.stat dirPath with
  | some (FsNode.folder numFiles numFolders) => numFiles == 0 && numFolders == 0
  | _ => false

/-- Events of the `catch` block of the `initButton` handler
(`console.error` plus the `Initialization failed` feedback, preferring
`error.stderr` over `error.message`). -/
def initFailureEvents (e : CmdFailure) : List Event :=
  [Event.consoleError ("Initialization error: " ++ e.message),
   Event.feedback ("Initialization failed: " ++ (if e.stderr ≠ "" then e.stderr else e.message))
     FeedbackType.error]

/-- The `initButton` click handler: validation, directory-emptiness
re-check, `git clone` of the example repository, `git remote set-url`,
and removal of the cloned `README.md`. -/
def initClick (localMarkdownPath githubRepoUrl vaultBasePath : String) (fs : Fs)
    (cloneOut setRemoteOut : ExecOutcome) : List Event :=
  if localMarkdownPath = "" ∨ githubRepoUrl = "" then
    [Event.feedback "Error: Local Markdown Directory and GitHub Repo URL must be set in plugin settings."
      FeedbackType.error]
  else
    let absoluteLocalPath := pathJoin vaultBasePath localMarkdownPath
    if (fs.stat absoluteLocalPath).isSome ∧ checkIfDirIsEmpty fs absoluteLocalPath = false then
      [Event.feedback ("Error: Directory '" ++ localMarkdownPath ++
        "' is not empty. Please choose an empty or new directory.") FeedbackType.error]
    else
      let ev0 := [Event.feedback "Cloning krems-example repository..." FeedbackType.status]
      let cloneCommand := "git clone https://github.com/mreider/krems-example \"" ++ absoluteLocalPath ++ "\""
      let cloneStep := execShellCommand cloneCommand "git clone <example-repo> <path>" vaultBasePath cloneOut
      match cloneStep.1 with
      | Except.error e => ev0 ++ cloneStep.2 ++ initFailureEvents e
      | Except.ok _ =>
        let ev1 := ev0 ++ cloneStep.2 ++
          [Event.feedback "Repository cloned. Setting remote URL..." FeedbackType.status]
        let setRemoteCommand := "git -C \"" ++ absoluteLocalPath ++ "\" remote set-url origin \"" ++
          githubRepoUrl ++ "\""
        let remoteStep := execShellCommand setRemoteCommand "git remote set-url origin <user-repo-url>"
          vaultBasePath setRemoteOut
        match remoteStep.1 with
        | Except.error e => ev1 ++ remoteStep.2 ++ initFailureEvents e
        | Except.ok _ =>
          let ev2 := ev1 ++ remoteStep.2 ++
            [Event.feedback "Remote URL set. Cleaning up README.md..." FeedbackType.status]
          let readmePath := pathJoin absoluteLocalPath "README.md"
          if (fs.stat readmePath).isSome then
            ev2 ++ [Event.fsRemove readmePath,
              Event.feedback "Directory initialized successfully! README.md removed." FeedbackType.success]
          else
            ev2 ++ [Event.feedback "Directory initialized successfully! (README.md not found to remove)."
              FeedbackType.success]

/-! ### Publish Workflow (the `pushButton` click handler),
`src/main.ts` lines 458-548. -/

/-- Events of the `catch` block of the `pushButton` handler. -/
def pushFailureEvents (e : CmdFailure) : List Event :=
  [Event.consoleError ("Push error: " ++ e.message),
   Event.feedback ("Push failed: " ++ e.message ++
     (if e.stderr ≠ "" then "\nStderr: " ++ e.stderr else "")) FeedbackType.error]

/-- The final `git push` invocation and its result handling. -/
def finishPush (pushCommand displayPushCommand absoluteLocalPath : String)
    (pushOut : ExecOutcome) : List Event :=
  let pushStep := execShellCommand pushCommand displayPushCommand absoluteLocalPath pushOut
  match pushStep.1 with
  | Except.ok pushResult =>
      pushStep.2 ++
        (if pushResult.stderr ≠ "" then
          [Event.feedback ("Push successful with warnings: " ++ pushResult.stderr) FeedbackType.success]
        else
          [Event.feedback "Site pushed successfully!" FeedbackType.success])
  | Except.error pe => pushStep.2 ++ pushFailureEvents pe

/-- The push phase: when a token is set and the URL is `https://`, build
the authenticated URL, discover the current branch (defaulting to `main`
on failure), and push to the authenticated URL and branch; otherwise plain
`git push`. -/
def pushPhase (gitPassword githubRepoUrl absoluteLocalPath : String)
    (branchOut pushOut : ExecOutcome) : List Event :=
  let ev0 := [Event.feedback "Pushing to remote repository..." FeedbackType.status]
  if gitPassword ≠ "" ∧ strStartsWith githubRepoUrl "https://" = true then
    let urlWithoutProtocol := strDrop githubRepoUrl 8
    let authenticatedUrl := "https://" ++ gitPassword ++ "@" ++ urlWithoutProtocol
    let branchStep := execShellCommand "git rev-parse --abbrev-ref HEAD"
      "git rev-parse --abbrev-ref HEAD" absoluteLocalPath branchOut
    match branchStep.1 with
    | Except.ok branchResult =>
        let currentBranch := branchResult.stdout
        let ev1 := ev0 ++ branchStep.2 ++
          (if branchResult.stderr ≠ "" then
            [Event.feedback ("Git branch check (warnings): " ++ branchResult.stderr) FeedbackType.status]
          else [])
        ev1 ++ [Event.feedback ("Pushing to " ++ githubRepoUrl ++ " (authenticated)...") FeedbackType.status] ++
          finishPush ("git push " ++ authenticatedUrl ++ " " ++ currentBranch)
            ("git push <authenticated_url> " ++ currentBranch) absoluteLocalPath pushOut
    | Except.error be =>
        let ev1 := ev0 ++ branchStep.2 ++
          [Event.consoleWarn ("Could not determine current branch, defaulting to 'main'. Error: " ++ be.message),
           Event.feedback ("Warning: Could not determine current branch (using 'main'). Details: " ++
             (if be.stderr ≠ "" then be.stderr else be.message)) FeedbackType.status]
        ev1 ++ [Event.feedback ("Pushing to " ++ githubRepoUrl ++ " (authenticated)...") FeedbackType.status] ++
          finishPush ("git push " ++ authenticatedUrl ++ " main")
            ("git push <authenticated_url> main") absoluteLocalPath pushOut
  else
    ev0 ++ [Event.feedback ("Pushing to " ++ githubRepoUrl ++
        " (unauthenticated, ensure credential helper or SSH is set up)...") FeedbackType.status] ++
      finishPush "git push" "git push" absoluteLocalPath pushOut

/-- The `pushButton` click handler: validation, commit-message resolution
and sanitisation, `git add .`, `git commit` (swallowing a
"nothing to commit" failure), then the push phase.  The commit author
environment overrides are passed opaquely to `exec` and are not part of
any observable event. -/
def pushClick (localMarkdownPath githubRepoUrl gitAuthorName gitAuthorEmail gitPassword
    vaultBasePath commitInputValue : String)
    (addOut commitOut branchOut pushOut : ExecOutcome) : List Event :=
  if localMarkdownPath = "" ∨ githubRepoUrl = "" then
    [Event.feedback "Error: Local Markdown Directory and GitHub Repo URL must be set in plugin settings."
      FeedbackType.error]
  else
    let absoluteLocalPath := pathJoin vaultBasePath localMarkdownPath
    let trimmedInput := strTrim commitInputValue
    let commitMessage := if trimmedInput = "" then "latest site version" else trimmedInput
    let sanitizedCommitMessage := sanitizeCommitMessage commitMessage
    let ev0 := [Event.feedback "Preparing to push site..." FeedbackType.status,
      Event.feedback "Adding files (git add .)..." FeedbackType.status]
    let addStep := execShellCommand "git add ." "git add ." absoluteLocalPath addOut
    match addStep.1 with
    | Except.error e => ev0 ++ addStep.2 ++ pushFailureEvents e
    | Except.ok addResult =>
      let ev1 := ev0 ++ addStep.2 ++
        (if addResult.stderr ≠ "" then
          [Event.feedback ("Git add (warnings): " ++ addResult.stderr) FeedbackType.status]
        else []) ++
        [Event.feedback ("Committing with message: \"" ++ sanitizedCommitMessage ++ "\"...")
          FeedbackType.status]
      let commitCmd := "git commit -m \"" ++ sanitizedCommitMessage ++ "\""
      let commitStep := execShellCommand commitCmd commitCmd absoluteLocalPath commitOut
      match commitStep.1 with
      | Except.ok commitResult =>
          let ev2 := ev1 ++ commitStep.2 ++
            (if commitResult.stderr ≠ "" then
              [Event.feedback ("Git commit (warnings): " ++ commitResult.stderr) FeedbackType.status]
            else [])
          ev2 ++ pushPhase gitPassword githubRepoUrl absoluteLocalPath branchOut pushOut
      | Except.error ce =>
          if ce.stdout ≠ "" ∧ strIncludes ce.stdout "nothing to commit" = true then
            (ev1 ++ commitStep.2 ++
              [Event.feedback "No changes to commit. Proceeding to push..." FeedbackType.status]) ++
              pushPhase gitPassword githubRepoUrl absoluteLocalPath branchOut pushOut
          else
            ev1 ++ commitStep.2 ++ pushFailureEvents ce

/-! ### Clean-and-clone variant (`cleanCloneButton` click handler),
`src/unnamed/part_003` lines 386-495. -/

/-- The clone-URL transformation of the clean-and-clone handler: a plain
`https://github.com/user/repo` URL is rewritten to
`git://github.com/user/repo.git`; anything else is used as provided.
Returns the URL to clone together with the feedback the branch shows. -/
def cleanCloneUrlChoice (githubRepoUrl : String) : String × List Event :=
  if strStartsWith githubRepoUrl "https://github.com/" = true then
    let pathPart := strDrop githubRepoUrl 19
    if (splitSlashAux pathPart.data []).length = 2 ∧ strEndsWith pathPart ".git" = false then
      let cloneUrl := "git://github.com/" ++ pathPart ++ ".git"
      (cloneUrl, [Event.feedback ("Using git:// protocol: " ++ cloneUrl) FeedbackType.status])
    else
      (githubRepoUrl,
       [Event.feedback ("Using provided HTTPS URL for clone: " ++ githubRepoUrl) FeedbackType.status])
  else if strStartsWith githubRepoUrl "git@github.com:" = true then
    (githubRepoUrl,
     [Event.feedback ("Using provided SSH URL for clone: " ++ githubRepoUrl) FeedbackType.status])
  else
    (githubRepoUrl, [])

/-- The clone part of the clean-and-clone handler (steps 2 and 3: parent
`mkdir` if needed, URL transformation, shallow `git clone`), appended to
the accumulated events of the delete part. -/
def cleanCloneCloneSteps (localMarkdownPath githubRepoUrl vaultBasePath : String) (fs : Fs)
    (cloneOut : ExecOutcome) (evAcc : List Event) : List Event :=
  let absoluteLocalPath := pathJoin vaultBasePath localMarkdownPath
  let parentDir := pathDirname localMarkdownPath
  let ev1 := evAcc ++
    (if parentDir ≠ "" ∧ parentDir ≠ "." ∧ (fs.stat parentDir).isNone then
      [Event.fsMkdir parentDir]
    else [])
  let ev2 := ev1 ++ [Event.feedback ("Cloning from " ++ githubRepoUrl ++ " into " ++
    localMarkdownPath ++ "...") FeedbackType.status]
  let urlChoice := cleanCloneUrlChoice githubRepoUrl
  let ev3 := ev2 ++ urlChoice.2
  let cloneCommand := "git clone --depth 1 " ++ urlChoice.1 ++ " \"" ++ absoluteLocalPath ++ "\""
  let cloneStep := execShellCommand cloneCommand "git clone <repo_url> <path>" vaultBasePath cloneOut
  match cloneStep.1 with
  | Except.ok _ =>
      ev3 ++ cloneStep.2 ++ [Event.feedback "Repository cloned successfully." FeedbackType.success]
  | Except.error e =>
      ev3 ++ cloneStep.2 ++
        [Event.consoleError ("Clean and Clone error: " ++ e.message),
         Event.feedback ("Clean and Clone failed: " ++
           (if e.stderr ≠ "" then e.stderr else e.message)) FeedbackType.error]

/-- The `cleanCloneButton` click handler: validation, explicit user
confirmation, then — when the vault-relative path exists — a guarded
recursive delete of the resolved absolute path via an OS-specific shell
command, followed by a fresh shallow clone.  The guard is literally
`absoluteLocalPath.startsWith(vaultBasePath)`; when it fails the thrown
security error is caught by the handler's outer `catch`. -/
def cleanCloneClick (localMarkdownPath githubRepoUrl vaultBasePath platform : String)
    (userConfirmation : Bool) (fs : Fs) (deleteOut cloneOut : ExecOutcome) : List Event :=
  if localMarkdownPath = "" ∨ githubRepoUrl = "" then
    [Event.feedback "Error: Local Markdown Directory and GitHub Repo URL must be set." FeedbackType.error]
  else if userConfirmation = false then
    [Event.feedback "Clean and Clone operation cancelled by user." FeedbackType.status]
  else
    let ev0 := [Event.feedback "Starting Clean and Clone operation..." FeedbackType.status]
    let absoluteLocalPath := pathJoin vaultBasePath localMarkdownPath
    if (fs.stat localMarkdownPath).isSome then
      let ev1 := ev0 ++ [Event.feedback ("Deleting existing directory: " ++ localMarkdownPath ++ "...")
        FeedbackType.status]
      if strStartsWith absoluteLocalPath vaultBasePath = false then
        ev1 ++ [Event.consoleError "Clean and Clone error: Security check failed: Path to delete is outside the vault.",
          Event.feedback "Clean and Clone failed: Security check failed: Path to delete is outside the vault."
            FeedbackType.error]
      else
        let deleteCommand :=
          if platform = "win32" then "rd /s /q \"" ++ absoluteLocalPath ++ "\""
          else "rm -rf \"" ++ absoluteLocalPath ++ "\""
        let displayDeleteCommand :=
          if platform = "win32" then "rd /s /q \"<path>\"" else "rm -rf \"<path>\""
        let deleteStep := execShellCommand deleteCommand displayDeleteCommand vaultBasePath deleteOut
        match deleteStep.1 with
        | Except.error e =>
            let errMsg := e.message ++ (if e.stderr ≠ "" then "\nStderr: " ++ e.stderr else "")
            ev1 ++ deleteStep.2 ++
              [Event.consoleError ("Error deleting directory with shell command: " ++ absoluteLocalPath),
               Event.feedback ("Failed to delete directory '" ++ localMarkdownPath ++
                 "' using shell command: " ++ errMsg ++
                 ". Please ensure the directory is not in use and try again, or remove it manually.")
                 FeedbackType.error]
        | Except.ok _ =>
            cleanCloneCloneSteps localMarkdownPath githubRepoUrl vaultBasePath fs cloneOut
              (ev1 ++ deleteStep.2 ++
                [Event.feedback ("Directory " ++ localMarkdownPath ++ " deleted.") FeedbackType.status])
    else
      cleanCloneCloneSteps localMarkdownPath githubRepoUrl vaultBasePath fs cloneOut
        (ev0 ++ [Event.feedback ("Directory " ++ localMarkdownPath ++ " does not exist. Proceeding to clone.")
          FeedbackType.status])

/-- Containment of a path in a root directory in the spec's sense
("the resolved absolute path is contained within the expected storage
root"): the path is the root itself or lies strictly below it (its text
extends the root past a `/` separator).  This is the spec-side notion the
handler's `startsWith` guard is compared against. -/
def containedInRoot (p root : String) : Prop :=
  p = root ∨ strStartsWith p (root ++ "/") = true

instance (p root : String) : Decidable (containedInRoot p root) := by
  unfold containedInRoot
  infer_instance

/-! ### Local Preview Controller state
(`isKremsLocallyRunning` / `localKremsProcess` and the handlers that
mutate them), `src/main.ts` lines 27-53 and 368-421. -/

/-- The two plugin fields tracking the preview server: the running flag
and the subprocess handle (`null` or a live `ChildProcess`, whose identity
is irrelevant to the invariant and modelled as `Unit`). -/
structure PreviewState where
  isKremsLocallyRunning : Bool
  localKremsProcess : Option Unit
deriving DecidableEq, Repr

/-- Plugin construction: not running, no handle. -/
def previewInitialState : PreviewState :=
  { isKremsLocallyRunning := false, localKremsProcess := none }

/-- The state-mutating handler completions of the Local Preview
Controller: successful `spawn` in the browse handler, the browse handler's
`catch`, the subprocess `error` and `close` events, the stop-button click,
and plugin unload. -/
inductive PreviewEvent
  | spawnSuccess
  | spawnThrow
  | procError
  | procClose (code : Int)
  | stopClick
  | unload
deriving DecidableEq, Repr

/-- State after one handler completes.  `spawnSuccess` stores the handle
and sets the flag; `spawnThrow`, `procError` and `procClose` clear both;
`stopClick` only kills the process (the `close` event does the clearing)
or, with no process, re-synchronises the flag; `unload` kills and clears
when a process is live. -/
def previewStep (s : PreviewState) (e : PreviewEvent) : PreviewState :=
  match e with
  | PreviewEvent.spawnSuccess => { isKremsLocallyRunning := true, localKremsProcess := some () }
  | PreviewEvent.spawnThrow => { isKremsLocallyRunning := false, localKremsProcess := none }
  | PreviewEvent.procError => { isKremsLocallyRunning := false, localKremsProcess := none }
  | PreviewEvent.procClose _ => { isKremsLocallyRunning := false, localKremsProcess := none }
  | PreviewEvent.stopClick =>
      if s.localKremsProcess.isSome then s
      else { s with isKremsLocallyRunning := false }
  | PreviewEvent.unload =>
      if s.localKremsProcess.isSome then
        { isKremsLocallyRunning := false, localKremsProcess := none }
      else s

/-! ## Helper lemmas -/

theorem execCmds_append (a b : List Event) : execCmds (a ++ b) = execCmds a ++ execCmds b :=
  List.filterMap_append a b _

theorem nonExecEvents_append (a b : List Event) :
    nonExecEvents (a ++ b) = nonExecEvents a ++ nonExecEvents b := by
  simp [nonExecEvents]

theorem persistedValues_append (a b : List Event) :
    persistedValues (a ++ b) = persistedValues a ++ persistedValues b :=
  List.filterMap_append a b _

theorem execCmds_ite (c : Prop) [Decidable c] (a b : List Event) :
    execCmds (if c then a else b) = if c then execCmds a else execCmds b := by
  split <;> rfl

theorem nonExecEvents_ite (c : Prop) [Decidable c] (a b : List Event) :
    nonExecEvents (if c then a else b) = if c then nonExecEvents a else nonExecEvents b := by
  split <;> rfl

theorem persistedValues_ite (c : Prop) [Decidable c] (a b : List Event) :
    persistedValues (if c then a else b) = if c then persistedValues a else persistedValues b := by
  split <;> rfl

theorem isPrefixOf_self (a : List Char) : a.isPrefixOf a = true := by
  induction a with
  | nil => rfl
  | cons c rest ih => simp [List.isPrefixOf, ih]

theorem nil_isPrefixOf (l : List Char) : List.isPrefixOf [] l = true := by
  cases l <;> rfl

theorem isPrefixOf_append_of_isPrefixOf (p a b : List Char) (h : p.isPrefixOf a = true) :
    p.isPrefixOf (a ++ b) = true := by
  induction p generalizing a with
  | nil => exact nil_isPrefixOf (a ++ b)
  | cons c rest ih =>
      cases a with
      | nil => cases h
      | cons d as =>
          simp only [List.cons_append, List.isPrefixOf, Bool.and_eq_true, beq_iff_eq] at h ⊢
          exact ⟨h.1, ih as h.2⟩

theorem strStartsWith_self (s : String) : strStartsWith s s = true :=
  isPrefixOf_self s.data

theorem strStartsWith_extend (a b p : String) (h : strStartsWith a p = true) :
    strStartsWith (a ++ b) p = true := by
  have : (a ++ b).data = a.data ++ b.data := rfl
  unfold strStartsWith
  rw [this]
  exact isPrefixOf_append_of_isPrefixOf p.data a.data b.data h

theorem execCmds_nil : execCmds [] = [] := rfl

theorem execCmds_cons_execCmd (c w : String) (t : List Event) :
    execCmds (Event.execCmd c w :: t) = c :: execCmds t := rfl

theorem execCmds_cons_feedback (m : String) (ty : FeedbackType) (t : List Event) :
    execCmds (Event.feedback m ty :: t) = execCmds t := rfl

theorem execCmds_cons_consoleError (m : String) (t : List Event) :
    execCmds (Event.consoleError m :: t) = execCmds t := rfl

theorem execCmds_cons_consoleWarn (m : String) (t : List Event) :
    execCmds (Event.consoleWarn m :: t) = execCmds t := rfl

theorem nonExecEvents_nil : nonExecEvents [] = [] := rfl

theorem nonExecEvents_cons_execCmd (c w : String) (t : List Event) :
    nonExecEvents (Event.execCmd c w :: t) = nonExecEvents t := rfl

theorem nonExecEvents_cons_feedback (m : String) (ty : FeedbackType) (t : List Event) :
    nonExecEvents (Event.feedback m ty :: t) = Event.feedback m ty :: nonExecEvents t := rfl

theorem nonExecEvents_cons_consoleError (m : String) (t : List Event) :
    nonExecEvents (Event.consoleError m :: t) = Event.consoleError m :: nonExecEvents t := rfl

theorem nonExecEvents_cons_consoleWarn (m : String) (t : List Event) :
    nonExecEvents (Event.consoleWarn m :: t) = Event.consoleWarn m :: nonExecEvents t := rfl

theorem persistedValues_nil : persistedValues [] = [] := rfl

theorem persistedValues_cons_execCmd (c w : String) (t : List Event) :
    persistedValues (Event.execCmd c w :: t) = persistedValues t := rfl

theorem persistedValues_cons_feedback (m : String) (ty : FeedbackType) (t : List Event) :
    persistedValues (Event.feedback m ty :: t) = persistedValues t := rfl

theorem persistedValues_cons_consoleError (m : String) (t : List Event) :
    persistedValues (Event.consoleError m :: t) = persistedValues t := rfl

theorem persistedValues_cons_consoleWarn (m : String) (t : List Event) :
    persistedValues (Event.consoleWarn m :: t) = persistedValues t := rfl

/-- The push phase executes no persistence. -/
theorem persistedValues_finishPush (pushCommand displayPushCommand absoluteLocalPath : String)
    (pushOut : ExecOutcome) :
    persistedValues (finishPush pushCommand displayPushCommand absoluteLocalPath pushOut) = [] := by
  obtain ⟨pe, po, ps⟩ := pushOut
  cases pe <;> by_cases hs : strTrim ps = "" <;>
    simp [finishPush, execShellCommand, pushFailureEvents, hs, persistedValues_append,
      persistedValues_ite, persistedValues_nil, persistedValues_cons_execCmd,
      persistedValues_cons_feedback, persistedValues_cons_consoleError,
      persistedValues_cons_consoleWarn]

theorem persistedValues_pushPhase (gitPassword githubRepoUrl absoluteLocalPath : String)
    (branchOut pushOut : ExecOutcome) :
    persistedValues (pushPhase gitPassword githubRepoUrl absoluteLocalPath branchOut pushOut) = [] := by
  obtain ⟨be, bo, bs⟩ := branchOut
  by_cases hauth : gitPassword ≠ "" ∧ strStartsWith githubRepoUrl "https://" = true
  · cases be <;> by_cases hs : strTrim bs = "" <;>
      simp [pushPhase, execShellCommand, hauth, hs, persistedValues_append, persistedValues_ite,
        persistedValues_nil, persistedValues_cons_execCmd, persistedValues_cons_feedback,
        persistedValues_cons_consoleError, persistedValues_cons_consoleWarn,
        persistedValues_finishPush]
  · simp [pushPhase, hauth, persistedValues_append, persistedValues_ite, persistedValues_nil,
      persistedValues_cons_execCmd, persistedValues_cons_feedback,
      persistedValues_cons_consoleError, persistedValues_cons_consoleWarn,
      persistedValues_finishPush]

/-- The Publish Workflow persists nothing, on any input and any command
outcomes. -/
theorem persistedValues_pushClick (localMarkdownPath githubRepoUrl gitAuthorName gitAuthorEmail
    gitPassword vaultBasePath commitInputValue : String)
    (addOut commitOut branchOut pushOut : ExecOutcome) :
    persistedValues (pushClick localMarkdownPath githubRepoUrl gitAuthorName gitAuthorEmail
      gitPassword vaultBasePath commitInputValue addOut commitOut branchOut pushOut) = [] := by
  obtain ⟨ae, ao, as⟩ := addOut
  obtain ⟨ce, co, cs⟩ := commitOut
  by_cases hval : localMarkdownPath = "" ∨ githubRepoUrl = ""
  · simp [pushClick, hval, persistedValues_cons_feedback, persistedValues_nil]
  · cases ae with
    | some a =>
        simp [pushClick, hval, execShellCommand, pushFailureEvents, persistedValues_append,
          persistedValues_ite, persistedValues_nil, persistedValues_cons_execCmd,
          persistedValues_cons_feedback, persistedValues_cons_consoleError,
          persistedValues_cons_consoleWarn]
    | none =>
      cases ce with
      | none =>
          simp [pushClick, hval, execShellCommand, persistedValues_append, persistedValues_ite,
            persistedValues_nil, persistedValues_cons_execCmd, persistedValues_cons_feedback,
            persistedValues_cons_consoleError, persistedValues_cons_consoleWarn,
            persistedValues_pushPhase]
      | some c =>
          by_cases hb : strTrim co ≠ "" ∧ strIncludes (strTrim co) "nothing to commit" = true <;>
            simp [pushClick, hval, hb, execShellCommand, pushFailureEvents, persistedValues_append,
              persistedValues_ite, persistedValues_nil, persistedValues_cons_execCmd,
              persistedValues_cons_feedback, persistedValues_cons_consoleError,
              persistedValues_cons_consoleWarn, persistedValues_pushPhase]

/-- The non-exec (user-facing and logged) events of the push phase do not
depend on the token, for any fixed command outcomes. -/
theorem nonExecEvents_pushPhase_indep (token1 token2 githubRepoUrl absoluteLocalPath : String)
    (branchOut pushOut : ExecOutcome) (h1 : token1 ≠ "") (h2 : token2 ≠ "")
    (hs : strStartsWith githubRepoUrl "https://" = true) :
    nonExecEvents (pushPhase token1 githubRepoUrl absoluteLocalPath branchOut pushOut) =
      nonExecEvents (pushPhase token2 githubRepoUrl absoluteLocalPath branchOut pushOut) := by
  obtain ⟨be, bo, bs⟩ := branchOut
  obtain ⟨pe, po, ps⟩ := pushOut
  cases be <;> cases pe <;>
    simp [pushPhase, finishPush, execShellCommand, pushFailureEvents, h1, h2, hs,
      nonExecEvents_append, nonExecEvents_ite, nonExecEvents_nil, nonExecEvents_cons_execCmd,
      nonExecEvents_cons_feedback, nonExecEvents_cons_consoleError, nonExecEvents_cons_consoleWarn]

/-- The push phase executes exactly the branch query and one final push
command. -/
theorem execCmds_pushPhase (token githubRepoUrl absoluteLocalPath : String)
    (branchOut pushOut : ExecOutcome) (ht : token ≠ "")
    (hs : strStartsWith githubRepoUrl "https://" = true) :
    ∃ pushCmd, execCmds (pushPhase token githubRepoUrl absoluteLocalPath branchOut pushOut) =
      ["git rev-parse --abbrev-ref HEAD", pushCmd] := by
  obtain ⟨be, bo, bs⟩ := branchOut
  obtain ⟨pe, po, ps⟩ := pushOut
  cases be with
  | none =>
      refine ⟨"git push " ++ ("https://" ++ token ++ "@" ++ strDrop githubRepoUrl 8) ++ " " ++
        strTrim bo, ?_⟩
      cases pe <;>
        simp [pushPhase, finishPush, execShellCommand, pushFailureEvents, ht, hs,
          execCmds_append, execCmds_ite, execCmds_nil, execCmds_cons_execCmd,
          execCmds_cons_feedback, execCmds_cons_consoleError, execCmds_cons_consoleWarn]
  | some bmsg =>
      refine ⟨"git push " ++ ("https://" ++ token ++ "@" ++ strDrop githubRepoUrl 8) ++
        " main", ?_⟩
      cases pe <;>
        simp [pushPhase, finishPush, execShellCommand, pushFailureEvents, ht, hs,
          execCmds_append, execCmds_ite, execCmds_nil, execCmds_cons_execCmd,
          execCmds_cons_feedback, execCmds_cons_consoleError, execCmds_cons_consoleWarn]

/-- One handler completion preserves the flag/handle coupling. -/
theorem previewStep_preserves (s : PreviewState) (e : PreviewEvent)
    (h : s.isKremsLocallyRunning = true → s.localKremsProcess.isSome = true) :
    (previewStep s e).isKremsLocallyRunning = true →
      (previewStep s e).localKremsProcess.isSome = true := by
  cases e with
  | spawnSuccess => intro _; rfl
  | spawnThrow => simp [previewStep]
  | procError => simp [previewStep]
  | procClose code => simp [previewStep]
  | stopClick =>
      by_cases hp : s.localKremsProcess.isSome = true
      · simp [previewStep, hp]
      · simp [previewStep, hp]
  | unload =>
      by_cases hp : s.localKremsProcess.isSome = true
      · simp [previewStep, hp]
      · simpa [previewStep, hp] using h

/-- The coupling holds along any event sequence from any state satisfying
it. -/
theorem previewFold_preserves (evs : List PreviewEvent) (s : PreviewState)
    (h : s.isKremsLocallyRunning = true → s.localKremsProcess.isSome = true) :
    (evs.foldl previewStep s).isKremsLocallyRunning = true →
      (evs.foldl previewStep s).localKremsProcess.isSome = true := by
  induction evs generalizing s with
  | nil => exact h
  | cons e rest ih => exact ih (previewStep s e) (previewStep_preserves s e h)

/-! ## Claims -/

/-- Claim C7: for every platform identifier outside `win32`, `darwin` and
`linux`, `ensureKremsBinary` fails immediately with the
"Unsupported operating system" error: its whole observable trace is that
single error message, so in particular no network request, no file-system
write and no fallback attempt occur, and the file system is untouched. -/
theorem ensureKremsBinary_unsupported_platform (platform configDir manifestId : String)
    (fs : Fs) (env : ProvisionEnv)
    (h1 : platform ≠ "win32") (h2 : platform ≠ "darwin") (h3 : platform ≠ "linux") :
    ensureKremsBinary platform configDir manifestId fs env =
      { result := none,
        events := [Event.feedback "Unsupported operating system for Krems download." FeedbackType.error],
        fsAfter := fs } ∧
    netRequests (ensureKremsBinary platform configDir manifestId fs env).events = [] ∧
    fsWrites (ensureKremsBinary platform configDir manifestId fs env).events = [] := by
  have hname : getKremsBinaryName platform = "" := by
    simp [getKremsBinaryName, h1, h2, h3]
  refine ⟨?_, ?_, ?_⟩ <;>
    simp [ensureKremsBinary, hname, netRequests, fsWrites]

theorem ensureKremsBinary_unsupported_platform_witness :
    ("freebsd" ≠ "win32" ∧ "freebsd" ≠ "darwin" ∧ "freebsd" ≠ "linux") ∧
    (ensureKremsBinary "freebsd" ".obsidian" "krems-obsidian-plugin" ⟨fun _ => none⟩
        ⟨true, "", some 200, ""⟩ =
      { result := none,
        events := [Event.feedback "Unsupported operating system for Krems download." FeedbackType.error],
        fsAfter := (⟨fun _ => none⟩ : Fs) } ∧
     netRequests (ensureKremsBinary "freebsd" ".obsidian" "krems-obsidian-plugin" ⟨fun _ => none⟩
        ⟨true, "", some 200, ""⟩).events = [] ∧
     fsWrites (ensureKremsBinary "freebsd" ".obsidian" "krems-obsidian-plugin" ⟨fun _ => none⟩
        ⟨true, "", some 200, ""⟩).events = []) :=
  ⟨⟨by decide, by decide, by decide⟩,
   ensureKremsBinary_unsupported_platform "freebsd" ".obsidian" "krems-obsidian-plugin"
     ⟨fun _ => none⟩ ⟨true, "", some 200, ""⟩ (by decide) (by decide) (by decide)⟩

/-- Claim C8: whenever the underlying process reports no error (zero exit
status), `execShellCommand` resolves with success carrying both streams
trimmed — a non-empty stderr is never turned into a failure. -/
theorem execShellCommand_zero_exit_success (command displayCmd cwd : String)
    (out : ExecOutcome) (h : out.error = none) :
    (execShellCommand command displayCmd cwd out).1 =
      Except.ok { stdout := strTrim out.stdout, stderr := strTrim out.stderr } := by
  simp [execShellCommand, h]

theorem execShellCommand_zero_exit_success_witness :
    (⟨none, "ok\n", "warning: redirecting to https\n"⟩ : ExecOutcome).error = none ∧
    (execShellCommand "git add ." "git add ." "/vault/site"
        ⟨none, "ok\n", "warning: redirecting to https\n"⟩).1 =
      Except.ok { stdout := "ok", stderr := "warning: redirecting to https" } :=
  ⟨rfl,
   execShellCommand_zero_exit_success "git add ." "git add ." "/vault/site"
     ⟨none, "ok\n", "warning: redirecting to https\n"⟩ rfl⟩

/-- Claim C9: along every sequence of Local Preview Controller handler
completions starting from plugin construction, the running flag
`isKremsLocallyRunning` is true only when the subprocess handle
`localKremsProcess` is non-null — no reachable state has the flag set with
a null handle, and every handler that clears the handle also clears the
flag. -/
theorem preview_state_invariant (evs : List PreviewEvent)
    (h : (evs.foldl previewStep previewInitialState).isKremsLocallyRunning = true) :
    (evs.foldl previewStep previewInitialState).localKremsProcess.isSome = true :=
  previewFold_preserves evs previewInitialState (by intro hr; cases hr) h

theorem preview_state_invariant_witness :
    (([PreviewEvent.spawnSuccess, PreviewEvent.stopClick].foldl previewStep
        previewInitialState).isKremsLocallyRunning = true) ∧
    (([PreviewEvent.spawnSuccess, PreviewEvent.stopClick].foldl previewStep
        previewInitialState).localKremsProcess.isSome = true) :=
  ⟨by decide, preview_state_invariant [PreviewEvent.spawnSuccess, PreviewEvent.stopClick] (by decide)⟩

/-- Claim C5: with an empty repository URL or an empty local directory
path, both the Repository Initializer and the Publish Workflow stop at
validation: each trace is exactly the one error message, and no shell
command is executed. -/
theorem validation_blocks_external_commands
    (localMarkdownPath githubRepoUrl gitAuthorName gitAuthorEmail gitPassword vaultBasePath
      commitInputValue : String) (fs : Fs)
    (cloneOut setRemoteOut addOut commitOut branchOut pushOut : ExecOutcome)
    (h : localMarkdownPath = "" ∨ githubRepoUrl = "") :
    initClick localMarkdownPath githubRepoUrl vaultBasePath fs cloneOut setRemoteOut =
      [Event.feedback "Error: Local Markdown Directory and GitHub Repo URL must be set in plugin settings."
        FeedbackType.error] ∧
    pushClick localMarkdownPath githubRepoUrl gitAuthorName gitAuthorEmail gitPassword
        vaultBasePath commitInputValue addOut commitOut branchOut pushOut =
      [Event.feedback "Error: Local Markdown Directory and GitHub Repo URL must be set in plugin settings."
        FeedbackType.error] ∧
    execCmds (initClick localMarkdownPath githubRepoUrl vaultBasePath fs cloneOut setRemoteOut) = [] ∧
    execCmds (pushClick localMarkdownPath githubRepoUrl gitAuthorName gitAuthorEmail gitPassword
      vaultBasePath commitInputValue addOut commitOut branchOut pushOut) = [] := by
  have hi : initClick localMarkdownPath githubRepoUrl vaultBasePath fs cloneOut setRemoteOut =
      [Event.feedback "Error: Local Markdown Directory and GitHub Repo URL must be set in plugin settings."
        FeedbackType.error] := by
    unfold initClick
    rw [if_pos h]
  have hp : pushClick localMarkdownPath githubRepoUrl gitAuthorName gitAuthorEmail gitPassword
      vaultBasePath commitInputValue addOut commitOut branchOut pushOut =
      [Event.feedback "Error: Local Markdown Directory and GitHub Repo URL must be set in plugin settings."
        FeedbackType.error] := by
    unfold pushClick
    rw [if_pos h]
  exact ⟨hi, hp, by rw [hi]; rfl, by rw [hp]; rfl⟩

theorem validation_blocks_external_commands_witness :
    (("" : String) = "" ∨ ("https://github.com/u/r" : String) = "") ∧
    execCmds (initClick "" "https://github.com/u/r" "/vault" ⟨fun _ => none⟩
      ⟨none, "", ""⟩ ⟨none, "", ""⟩) = [] ∧
    execCmds (pushClick "" "https://github.com/u/r" "" "" "tok" "/vault" ""
      ⟨none, "", ""⟩ ⟨none, "", ""⟩ ⟨none, "", ""⟩ ⟨none, "", ""⟩) = [] :=
  ⟨Or.inl rfl,
   (validation_blocks_external_commands "" "https://github.com/u/r" "" "" "tok" "/vault" ""
     ⟨fun _ => none⟩ ⟨none, "", ""⟩ ⟨none, "", ""⟩ ⟨none, "", ""⟩ ⟨none, "", ""⟩
     ⟨none, "", ""⟩ ⟨none, "", ""⟩ (Or.inl rfl)).2.2.1,
   (validation_blocks_external_commands "" "https://github.com/u/r" "" "" "tok" "/vault" ""
     ⟨fun _ => none⟩ ⟨none, "", ""⟩ ⟨none, "", ""⟩ ⟨none, "", ""⟩ ⟨none, "", ""⟩
     ⟨none, "", ""⟩ ⟨none, "", ""⟩ (Or.inl rfl)).2.2.2⟩

/-- Claim C2: with valid settings, the Repository Initializer refuses to
clone when the target path exists as a non-empty directory (its trace is
exactly the "not empty" error, with no shell command executed), and
proceeds to run the clone command when the path is absent or an existing
empty directory. -/
theorem initializer_directory_safety (localMarkdownPath githubRepoUrl vaultBasePath : String)
    (fs : Fs) (cloneOut setRemoteOut : ExecOutcome)
    (hl : localMarkdownPath ≠ "") (hu : githubRepoUrl ≠ "") :
    (∀ numFiles numFolders,
      fs.stat (pathJoin vaultBasePath localMarkdownPath) = some (FsNode.folder numFiles numFolders) →
      ¬(numFiles = 0 ∧ numFolders = 0) →
      initClick localMarkdownPath githubRepoUrl vaultBasePath fs cloneOut setRemoteOut =
        [Event.feedback ("Error: Directory '" ++ localMarkdownPath ++
          "' is not empty. Please choose an empty or new directory.") FeedbackType.error] ∧
      execCmds (initClick localMarkdownPath githubRepoUrl vaultBasePath fs cloneOut setRemoteOut) = []) ∧
    ((fs.stat (pathJoin vaultBasePath localMarkdownPath) = none ∨
      fs.stat (pathJoin vaultBasePath localMarkdownPath) = some (FsNode.folder 0 0)) →
      ("git clone https://github.com/mreider/krems-example \"" ++
        pathJoin vaultBasePath localMarkdownPath ++ "\"") ∈
        execCmds (initClick localMarkdownPath githubRepoUrl vaultBasePath fs cloneOut setRemoteOut)) := by
  have hval : ¬(localMarkdownPath = "" ∨ githubRepoUrl = "") := by
    rintro (h | h)
    · exact hl h
    · exact hu h
  constructor
  · intro numFiles numFolders hstat hne
    have hempty : checkIfDirIsEmpty fs (pathJoin vaultBasePath localMarkdownPath) = false := by
      simp only [checkIfDirIsEmpty, hstat]
      simpa using hne
    have htrace : initClick localMarkdownPath githubRepoUrl vaultBasePath fs cloneOut setRemoteOut =
        [Event.feedback ("Error: Directory '" ++ localMarkdownPath ++
          "' is not empty. Please choose an empty or new directory.") FeedbackType.error] := by
      simp [initClick, hval, hstat, hempty]
    exact ⟨htrace, by rw [htrace]; rfl⟩
  · intro hstat
    have hcond : ¬((fs.stat (pathJoin vaultBasePath localMarkdownPath)).isSome ∧
        checkIfDirIsEmpty fs (pathJoin vaultBasePath localMarkdownPath) = false) := by
      rcases hstat with h | h
      · simp [h]
      · simp [checkIfDirIsEmpty, h]
    obtain ⟨ce, co, cs⟩ := cloneOut
    obtain ⟨re, ro, rs⟩ := setRemoteOut
    cases ce <;> cases re <;>
      simp [initClick, hval, hcond, execShellCommand, initFailureEvents, execCmds]
    all_goals split <;> simp

theorem initializer_directory_safety_witness :
    (("site" : String) ≠ "" ∧ ("https://github.com/u/r" : String) ≠ "") ∧
    ((⟨fun _ => none⟩ : Fs).stat (pathJoin "/vault" "site") = none ∨
      (⟨fun _ => none⟩ : Fs).stat (pathJoin "/vault" "site") = some (FsNode.folder 0 0)) ∧
    ("git clone https://github.com/mreider/krems-example \"" ++ pathJoin "/vault" "site" ++ "\"") ∈
      execCmds (initClick "site" "https://github.com/u/r" "/vault" ⟨fun _ => none⟩
        ⟨none, "", ""⟩ ⟨none, "", ""⟩) :=
  ⟨⟨by decide, by decide⟩, Or.inl rfl,
   (initializer_directory_safety "site" "https://github.com/u/r" "/vault" ⟨fun _ => none⟩
     ⟨none, "", ""⟩ ⟨none, "", ""⟩ (by decide) (by decide)).2 (Or.inl rfl)⟩

/-- Claim C4 (refuted as stated — the code contradicts its own guard
comment): the clean-and-clone delete guard is the string-prefix test
`absoluteLocalPath.startsWith(vaultBasePath)`, not containment.  With
vault root `/vault` and local directory `../vault-other`, the resolved
path `/vault-other` passes the prefix test although it is not contained
within the vault root, and the recursive delete command runs on it. -/
theorem cleanClone_delete_guard_escape :
    pathJoin "/vault" "../vault-other" = "/vault-other" ∧
    strStartsWith (pathJoin "/vault" "../vault-other") "/vault" = true ∧
    ¬ containedInRoot (pathJoin "/vault" "../vault-other") "/vault" ∧
    ("rm -rf \"/vault-other\"" ∈ execCmds (cleanCloneClick "../vault-other"
      "https://github.com/user/site" "/vault" "linux" true
      ⟨fun q => if q = "../vault-other" then some (FsNode.folder 1 0) else none⟩
      ⟨none, "", ""⟩ ⟨none, "", ""⟩)) := by
  refine ⟨by decide, by decide, by decide, ?_⟩
  decide

/-- Claim C10: the Publish Workflow embeds into the `git commit` command
the message resolved to the trimmed input when non-empty and to the fixed
default "latest site version" otherwise, sanitised by replacing every
double-quote character with a backslash-escaped double quote and leaving
every other character unchanged. -/
theorem publish_commit_message_resolution
    (localMarkdownPath githubRepoUrl gitAuthorName gitAuthorEmail gitPassword vaultBasePath
      commitInputValue : String) (addOut commitOut branchOut pushOut : ExecOutcome)
    (hl : localMarkdownPath ≠ "") (hu : githubRepoUrl ≠ "") (ha : addOut.error = none) :
    Event.execCmd ("git commit -m \"" ++
        sanitizeCommitMessage (if strTrim commitInputValue = "" then "latest site version"
          else strTrim commitInputValue) ++ "\"")
        (pathJoin vaultBasePath localMarkdownPath) ∈
      pushClick localMarkdownPath githubRepoUrl gitAuthorName gitAuthorEmail gitPassword
        vaultBasePath commitInputValue addOut commitOut branchOut pushOut ∧
    (∀ m : String, (sanitizeCommitMessage m).data =
      m.data.flatMap (fun ch => if ch = '"' then ['\\', '"'] else [ch])) := by
  have hval : ¬(localMarkdownPath = "" ∨ githubRepoUrl = "") := by
    rintro (h | h)
    · exact hl h
    · exact hu h
  constructor
  · obtain ⟨ae, ao, as⟩ := addOut
    cases ae with
    | some a => simp at ha
    | none =>
      obtain ⟨ce, co, cs⟩ := commitOut
      cases ce with
      | none => simp [pushClick, hval, execShellCommand]
      | some c =>
          by_cases hb : strTrim co ≠ "" ∧ strIncludes (strTrim co) "nothing to commit" = true
          · simp [pushClick, hval, execShellCommand, hb]
          · simp [pushClick, hval, execShellCommand, hb, pushFailureEvents]
  · intro m
    show (String.mk (escapeQuoteChars m.data)).data = _
    induction m.data with
    | nil => rfl
    | cons c rest ih =>
        by_cases hc : c = '"' <;> simp [escapeQuoteChars, hc] <;> simpa using ih

theorem publish_commit_message_resolution_witness :
    (("site" : String) ≠ "" ∧ ("https://github.com/u/r" : String) ≠ "" ∧
      (⟨none, "", ""⟩ : ExecOutcome).error = none) ∧
    Event.execCmd ("git commit -m \"" ++
        sanitizeCommitMessage (if strTrim "  say \"hi\"  " = "" then "latest site version"
          else strTrim "  say \"hi\"  ") ++ "\"")
        (pathJoin "/vault" "site") ∈
      pushClick "site" "https://github.com/u/r" "" "" "tok" "/vault" "  say \"hi\"  "
        ⟨none, "", ""⟩ ⟨none, "", ""⟩ ⟨none, "main\n", ""⟩ ⟨none, "", ""⟩ :=
  ⟨⟨by decide, by decide, rfl⟩,
   (publish_commit_message_resolution "site" "https://github.com/u/r" "" "" "tok" "/vault"
     "  say \"hi\"  " ⟨none, "", ""⟩ ⟨none, "", ""⟩ ⟨none, "main\n", ""⟩ ⟨none, "", ""⟩
     (by decide) (by decide) rfl).1⟩

/-- Claim C3: when `git add` succeeded and the commit step fails, the
Publish Workflow swallows the failure and still runs a push command
exactly when the failure's captured (trimmed) stdout contains
"nothing to commit"; any other commit failure aborts the run before any
push: the only commands executed are `git add .` and the commit itself,
and the failure is reported. -/
theorem publish_nothing_to_commit
    (localMarkdownPath githubRepoUrl gitAuthorName gitAuthorEmail gitPassword vaultBasePath
      commitInputValue : String) (addOut commitOut branchOut pushOut : ExecOutcome)
    (hl : localMarkdownPath ≠ "") (hu : githubRepoUrl ≠ "") (ha : addOut.error = none)
    (cmsg : String) (hc : commitOut.error = some cmsg) :
    (strIncludes (strTrim commitOut.stdout) "nothing to commit" = true →
      Event.feedback "No changes to commit. Proceeding to push..." FeedbackType.status ∈
        pushClick localMarkdownPath githubRepoUrl gitAuthorName gitAuthorEmail gitPassword
          vaultBasePath commitInputValue addOut commitOut branchOut pushOut ∧
      ∃ c ∈ execCmds (pushClick localMarkdownPath githubRepoUrl gitAuthorName gitAuthorEmail
          gitPassword vaultBasePath commitInputValue addOut commitOut branchOut pushOut),
        strStartsWith c "git push" = true) ∧
    (strIncludes (strTrim commitOut.stdout) "nothing to commit" = false →
      execCmds (pushClick localMarkdownPath githubRepoUrl gitAuthorName gitAuthorEmail
          gitPassword vaultBasePath commitInputValue addOut commitOut branchOut pushOut) =
        ["git add .",
         "git commit -m \"" ++ sanitizeCommitMessage (if strTrim commitInputValue = ""
           then "latest site version" else strTrim commitInputValue) ++ "\""] ∧
      ∃ failMsg, Event.feedback failMsg FeedbackType.error ∈
        pushClick localMarkdownPath githubRepoUrl gitAuthorName gitAuthorEmail gitPassword
          vaultBasePath commitInputValue addOut commitOut branchOut pushOut ∧
        strStartsWith failMsg "Push failed: " = true) := by
  have hval : ¬(localMarkdownPath = "" ∨ githubRepoUrl = "") := by
    rintro (h | h)
    · exact hl h
    · exact hu h
  obtain ⟨ae, ao, as⟩ := addOut
  cases ae with
  | some a => simp at ha
  | none =>
    obtain ⟨ce, co, cs⟩ := commitOut
    cases ce with
    | none => simp at hc
    | some c =>
      constructor
      · intro hinc
        have hinc' : strIncludes (strTrim co) "nothing to commit" = true := hinc
        have hne : strTrim co ≠ "" := by
          intro h0
          rw [h0] at hinc'
          exact absurd hinc' (by decide)
        have hb : strTrim co ≠ "" ∧ strIncludes (strTrim co) "nothing to commit" = true :=
          ⟨hne, hinc'⟩
        constructor
        · simp [pushClick, hval, execShellCommand, hb]
        · by_cases hauth : gitPassword ≠ "" ∧ strStartsWith githubRepoUrl "https://" = true
          · obtain ⟨be, bo, bs⟩ := branchOut
            obtain ⟨pe, po, ps⟩ := pushOut
            have h0 : strStartsWith ("git push " ++ ("https://" ++ gitPassword ++ "@" ++
                strDrop githubRepoUrl 8)) "git push" = true :=
              strStartsWith_extend "git push " _ "git push" (by decide)
            cases be with
            | none =>
                refine ⟨"git push " ++ ("https://" ++ gitPassword ++ "@" ++ strDrop githubRepoUrl 8) ++
                  " " ++ strTrim bo, ?_,
                  strStartsWith_extend _ (strTrim bo) "git push"
                    (strStartsWith_extend _ " " "git push" h0)⟩
                cases pe <;>
                  simp [pushClick, pushPhase, finishPush, hval, hauth, execShellCommand, hb, execCmds]
            | some bmsg =>
                refine ⟨"git push " ++ ("https://" ++ gitPassword ++ "@" ++ strDrop githubRepoUrl 8) ++
                  " main", ?_, strStartsWith_extend _ " main" "git push" h0⟩
                cases pe <;>
                  simp [pushClick, pushPhase, finishPush, hval, hauth, execShellCommand, hb, execCmds]
          · obtain ⟨pe, po, ps⟩ := pushOut
            refine ⟨"git push", ?_, by decide⟩
            cases pe <;>
              simp [pushClick, pushPhase, finishPush, hval, hauth, execShellCommand, hb, execCmds]
      · intro hninc
        have hninc' : strIncludes (strTrim co) "nothing to commit" = false := hninc
        have hb : ¬(strTrim co ≠ "" ∧ strIncludes (strTrim co) "nothing to commit" = true) := by
          rintro ⟨-, h2⟩
          rw [hninc'] at h2
          simp at h2
        have hstart : strStartsWith ("Push failed: " ++ ("Command failed: " ++
            ("git commit -m \"" ++ sanitizeCommitMessage (if strTrim commitInputValue = ""
              then "latest site version" else strTrim commitInputValue) ++ "\"") ++
            ". Error: " ++ c) ++
            (if strTrim cs ≠ "" then "\nStderr: " ++ strTrim cs else "")) "Push failed: " = true :=
          strStartsWith_extend _ _ "Push failed: "
            (strStartsWith_extend "Push failed: " _ "Push failed: "
              (strStartsWith_self "Push failed: "))
        refine ⟨?_, "Push failed: " ++ ("Command failed: " ++
            ("git commit -m \"" ++ sanitizeCommitMessage (if strTrim commitInputValue = ""
              then "latest site version" else strTrim commitInputValue) ++ "\"") ++
            ". Error: " ++ c) ++
            (if strTrim cs ≠ "" then "\nStderr: " ++ strTrim cs else ""), ?_, hstart⟩
        · by_cases has : strTrim as = "" <;>
            simp [pushClick, hval, execShellCommand, hb, pushFailureEvents, execCmds, has]
        · simp [pushClick, hval, execShellCommand, hb, pushFailureEvents]

/-- Claim C3 witness at a concrete benign commit failure. -/
theorem publish_nothing_to_commit_witness :
    (("site" : String) ≠ "" ∧ ("https://github.com/u/r" : String) ≠ "" ∧
     (⟨none, "", ""⟩ : ExecOutcome).error = none ∧
     (⟨some "exit 1", "On branch main\nnothing to commit, working tree clean\n", ""⟩ :
       ExecOutcome).error = some "exit 1" ∧
     strIncludes (strTrim (⟨some "exit 1",
       "On branch main\nnothing to commit, working tree clean\n", ""⟩ :
       ExecOutcome).stdout) "nothing to commit" = true) ∧
    (Event.feedback "No changes to commit. Proceeding to push..." FeedbackType.status ∈
      pushClick "site" "https://github.com/u/r" "" "" "tok" "/vault" "" ⟨none, "", ""⟩
        ⟨some "exit 1", "On branch main\nnothing to commit, working tree clean\n", ""⟩
        ⟨none, "main\n", ""⟩ ⟨none, "", ""⟩ ∧
     ∃ c ∈ execCmds (pushClick "site" "https://github.com/u/r" "" "" "tok" "/vault" ""
        ⟨none, "", ""⟩
        ⟨some "exit 1", "On branch main\nnothing to commit, working tree clean\n", ""⟩
        ⟨none, "main\n", ""⟩ ⟨none, "", ""⟩),
       strStartsWith c "git push" = true) :=
  ⟨⟨by decide, by decide, rfl, rfl, by decide⟩,
   (publish_nothing_to_commit "site" "https://github.com/u/r" "" "" "tok" "/vault" ""
     ⟨none, "", ""⟩ ⟨some "exit 1", "On branch main\nnothing to commit, working tree clean\n", ""⟩
     ⟨none, "main\n", ""⟩ ⟨none, "", ""⟩ (by decide) (by decide) rfl "exit 1" rfl).1
     (by decide)⟩

/-- Claim C6: when the target binary path already exists,
`ensureKremsBinary` performs no network request and no file-system write
and leaves the file system unchanged; on non-Windows platforms it
re-applies the executable permission bit, and unless that chmod fails it
returns the existing path.  Consequently any successful call is
idempotent: a second call on the resulting file system returns the same
path with no network request. -/
theorem ensureKremsBinary_idempotent (platform configDir manifestId : String) (fs : Fs)
    (env : ProvisionEnv) :
    (getKremsBinaryName platform ≠ "" →
      (fs.stat (pathJoin (getKremsBinaryDir configDir manifestId)
        (getKremsBinaryName platform))).isSome = true →
      netRequests (ensureKremsBinary platform configDir manifestId fs env).events = [] ∧
      fsWrites (ensureKremsBinary platform configDir manifestId fs env).events = [] ∧
      (ensureKremsBinary platform configDir manifestId fs env).fsAfter = fs ∧
      (platform ≠ "win32" →
        Event.chmod (pathJoin (getKremsBinaryDir configDir manifestId)
          (getKremsBinaryName platform)) ∈
          (ensureKremsBinary platform configDir manifestId fs env).events) ∧
      ((platform = "win32" ∨ env.chmodOk = true) →
        (ensureKremsBinary platform configDir manifestId fs env).result =
          some (pathJoin (getKremsBinaryDir configDir manifestId)
            (getKremsBinaryName platform)))) ∧
    (∀ q, (ensureKremsBinary platform configDir manifestId fs env).result = some q →
      (ensureKremsBinary platform configDir manifestId
        (ensureKremsBinary platform configDir manifestId fs env).fsAfter env).result = some q ∧
      netRequests (ensureKremsBinary platform configDir manifestId
        (ensureKremsBinary platform configDir manifestId fs env).fsAfter env).events = []) := by
  constructor
  · intro hname hex
    by_cases hw : platform = "win32"
    · subst hw
      have hex' : (fs.stat (pathJoin (getKremsBinaryDir configDir manifestId)
          "krems-windows-amd64.exe")).isSome = true := hex
      simp [ensureKremsBinary, getKremsBinaryName, hex', netRequests, fsWrites]
    · by_cases hc : env.chmodOk = true
      · simp [ensureKremsBinary, hname, hex, hw, hc, netRequests, fsWrites]
      · simp [ensureKremsBinary, hname, hex, hw, hc, netRequests, fsWrites]
  · intro q hq
    by_cases hname : getKremsBinaryName platform = ""
    · simp [ensureKremsBinary, hname] at hq
    · by_cases hex : (fs.stat (pathJoin (getKremsBinaryDir configDir manifestId)
          (getKremsBinaryName platform))).isSome = true
      · by_cases hw : platform = "win32"
        · subst hw
          have hex' : (fs.stat (pathJoin (getKremsBinaryDir configDir manifestId)
              "krems-windows-amd64.exe")).isSome = true := hex
          simp [ensureKremsBinary, getKremsBinaryName, hex', netRequests] at hq ⊢
          exact hq
        · by_cases hc : env.chmodOk = true
          · simp [ensureKremsBinary, hname, hex, hw, hc, netRequests] at hq ⊢
            exact hq
          · simp [ensureKremsBinary, hname, hex, hw, hc] at hq
      · cases hresp : env.response with
        | none => simp [ensureKremsBinary, hname, hex, hresp] at hq
        | some status =>
          by_cases hst : status = 200
          · subst hst
            by_cases hw : platform = "win32"
            · subst hw
              have hex' : ¬((fs.stat (pathJoin (getKremsBinaryDir configDir manifestId)
                  "krems-windows-amd64.exe")).isSome = true) := hex
              simp [ensureKremsBinary, getKremsBinaryName, hex', hresp, Fs.withFile,
                netRequests] at hq ⊢
              exact hq
            · by_cases hc : env.chmodOk = true
              · simp [ensureKremsBinary, hname, hex, hw, hc, hresp, Fs.withFile,
                  netRequests] at hq ⊢
                exact hq
              · simp [ensureKremsBinary, hname, hex, hw, hc, hresp] at hq
          · simp [ensureKremsBinary, hname, hex, hresp, hst] at hq

/-- Claim C6 witness: with the binary already present the call returns
its path (re-download-free by the theorem's other conjuncts). -/
theorem ensureKremsBinary_idempotent_witness :
    (getKremsBinaryName "linux" ≠ "" ∧
     ((⟨fun q => if q = ".obsidian/plugins/krems-obsidian-plugin/bin/krems-linux-amd64" then
        some FsNode.file else none⟩ : Fs).stat
        (pathJoin (getKremsBinaryDir ".obsidian" "krems-obsidian-plugin")
          (getKremsBinaryName "linux"))).isSome = true ∧
     (("linux" : String) = "win32" ∨
       (⟨true, "", some 200, ""⟩ : ProvisionEnv).chmodOk = true)) ∧
    (ensureKremsBinary "linux" ".obsidian" "krems-obsidian-plugin"
      ⟨fun q => if q = ".obsidian/plugins/krems-obsidian-plugin/bin/krems-linux-amd64" then
        some FsNode.file else none⟩ ⟨true, "", some 200, ""⟩).result =
      some (pathJoin (getKremsBinaryDir ".obsidian" "krems-obsidian-plugin")
        (getKremsBinaryName "linux")) :=
  ⟨⟨by decide, by decide, Or.inr rfl⟩,
   ((ensureKremsBinary_idempotent "linux" ".obsidian" "krems-obsidian-plugin"
     ⟨fun q => if q = ".obsidian/plugins/krems-obsidian-plugin/bin/krems-linux-amd64" then
       some FsNode.file else none⟩ ⟨true, "", some 200, ""⟩).1
     (by decide) (by decide)).2.2.2.2 (Or.inr rfl)⟩

/-- Claim C1 (noninterference of the token): with both settings otherwise
equal, a non-empty token in each run, a secure-scheme repository URL and
the same external command outcomes, the Publish Workflow produces exactly
the same user-facing and logged events under either token, persists
nothing, and executes command lists that agree except possibly in their
final element (the single push invocation) — so the token can reach only
the push command string, never logging or persisted storage. -/
theorem publish_token_noninterference (localMarkdownPath githubRepoUrl gitAuthorName
    gitAuthorEmail vaultBasePath commitInputValue token1 token2 : String)
    (addOut commitOut branchOut pushOut : ExecOutcome)
    (hl : localMarkdownPath ≠ "") (hu : githubRepoUrl ≠ "")
    (h1 : token1 ≠ "") (h2 : token2 ≠ "")
    (hs : strStartsWith githubRepoUrl "https://" = true) :
    nonExecEvents (pushClick localMarkdownPath githubRepoUrl gitAuthorName gitAuthorEmail token1
        vaultBasePath commitInputValue addOut commitOut branchOut pushOut) =
      nonExecEvents (pushClick localMarkdownPath githubRepoUrl gitAuthorName gitAuthorEmail token2
        vaultBasePath commitInputValue addOut commitOut branchOut pushOut) ∧
    persistedValues (pushClick localMarkdownPath githubRepoUrl gitAuthorName gitAuthorEmail token1
      vaultBasePath commitInputValue addOut commitOut branchOut pushOut) = [] ∧
    (∃ pre c1 c2,
      execCmds (pushClick localMarkdownPath githubRepoUrl gitAuthorName gitAuthorEmail token1
        vaultBasePath commitInputValue addOut commitOut branchOut pushOut) = pre ++ [c1] ∧
      execCmds (pushClick localMarkdownPath githubRepoUrl gitAuthorName gitAuthorEmail token2
        vaultBasePath commitInputValue addOut commitOut branchOut pushOut) = pre ++ [c2]) := by
  have hval : ¬(localMarkdownPath = "" ∨ githubRepoUrl = "") := by
    rintro (h | h)
    · exact hl h
    · exact hu h
  refine ⟨?_, persistedValues_pushClick localMarkdownPath githubRepoUrl gitAuthorName
    gitAuthorEmail token1 vaultBasePath commitInputValue addOut commitOut branchOut pushOut, ?_⟩
  · obtain ⟨ae, ao, as⟩ := addOut
    obtain ⟨ce, co, cs⟩ := commitOut
    cases ae with
    | some a =>
        simp [pushClick, hval, execShellCommand, pushFailureEvents]
    | none =>
      cases ce with
      | none =>
          simp [pushClick, hval, execShellCommand,
            nonExecEvents_append, nonExecEvents_ite, nonExecEvents_nil,
            nonExecEvents_cons_execCmd, nonExecEvents_cons_feedback,
            nonExecEvents_cons_consoleError, nonExecEvents_cons_consoleWarn,
            nonExecEvents_pushPhase_indep token1 token2 githubRepoUrl
              (pathJoin vaultBasePath localMarkdownPath) branchOut pushOut h1 h2 hs]
      | some c =>
          by_cases hb : strTrim co ≠ "" ∧ strIncludes (strTrim co) "nothing to commit" = true
          · simp [pushClick, hval, hb, execShellCommand,
              nonExecEvents_append, nonExecEvents_ite, nonExecEvents_nil,
              nonExecEvents_cons_execCmd, nonExecEvents_cons_feedback,
              nonExecEvents_cons_consoleError, nonExecEvents_cons_consoleWarn,
              nonExecEvents_pushPhase_indep token1 token2 githubRepoUrl
                (pathJoin vaultBasePath localMarkdownPath) branchOut pushOut h1 h2 hs]
          · simp [pushClick, hval, hb, execShellCommand, pushFailureEvents]
  · obtain ⟨ae, ao, as⟩ := addOut
    obtain ⟨ce, co, cs⟩ := commitOut
    cases ae with
    | some a =>
        refine ⟨[], "git add .", "git add .", ?_, ?_⟩ <;>
          simp [pushClick, hval, execShellCommand, pushFailureEvents, execCmds_append,
            execCmds_ite, execCmds_nil, execCmds_cons_execCmd, execCmds_cons_feedback,
            execCmds_cons_consoleError, execCmds_cons_consoleWarn]
    | none =>
      cases ce with
      | none =>
          obtain ⟨p1, hp1⟩ := execCmds_pushPhase token1 githubRepoUrl
            (pathJoin vaultBasePath localMarkdownPath) branchOut pushOut h1 hs
          obtain ⟨p2, hp2⟩ := execCmds_pushPhase token2 githubRepoUrl
            (pathJoin vaultBasePath localMarkdownPath) branchOut pushOut h2 hs
          refine ⟨["git add .",
            "git commit -m \"" ++ sanitizeCommitMessage (if strTrim commitInputValue = ""
              then "latest site version" else strTrim commitInputValue) ++ "\"",
            "git rev-parse --abbrev-ref HEAD"], p1, p2, ?_, ?_⟩ <;>
            simp [pushClick, hval, execShellCommand, execCmds_append, execCmds_ite,
              execCmds_nil, execCmds_cons_execCmd, execCmds_cons_feedback,
              execCmds_cons_consoleError, execCmds_cons_consoleWarn, hp1, hp2]
      | some c =>
          by_cases hb : strTrim co ≠ "" ∧ strIncludes (strTrim co) "nothing to commit" = true
          · obtain ⟨p1, hp1⟩ := execCmds_pushPhase token1 githubRepoUrl
              (pathJoin vaultBasePath localMarkdownPath) branchOut pushOut h1 hs
            obtain ⟨p2, hp2⟩ := execCmds_pushPhase token2 githubRepoUrl
              (pathJoin vaultBasePath localMarkdownPath) branchOut pushOut h2 hs
            refine ⟨["git add .",
              "git commit -m \"" ++ sanitizeCommitMessage (if strTrim commitInputValue = ""
                then "latest site version" else strTrim commitInputValue) ++ "\"",
              "git rev-parse --abbrev-ref HEAD"], p1, p2, ?_, ?_⟩ <;>
              simp [pushClick, hval, hb, execShellCommand, execCmds_append, execCmds_ite,
                execCmds_nil, execCmds_cons_execCmd, execCmds_cons_feedback,
                execCmds_cons_consoleError, execCmds_cons_consoleWarn, hp1, hp2]
          · refine ⟨["git add ."],
              "git commit -m \"" ++ sanitizeCommitMessage (if strTrim commitInputValue = ""
                then "latest site version" else strTrim commitInputValue) ++ "\"",
              "git commit -m \"" ++ sanitizeCommitMessage (if strTrim commitInputValue = ""
                then "latest site version" else strTrim commitInputValue) ++ "\"", ?_, ?_⟩ <;>
              simp [pushClick, hval, hb, execShellCommand, pushFailureEvents, execCmds_append,
                execCmds_ite, execCmds_nil, execCmds_cons_execCmd, execCmds_cons_feedback,
                execCmds_cons_consoleError, execCmds_cons_consoleWarn]

/-- Claim C1 witness at concrete settings and outcomes, two tokens. -/
theorem publish_token_noninterference_witness :
    (("site" : String) ≠ "" ∧ ("https://github.com/u/r" : String) ≠ "" ∧
     ("tokenA" : String) ≠ "" ∧ ("tokenB" : String) ≠ "" ∧
     strStartsWith "https://github.com/u/r" "https://" = true) ∧
    (nonExecEvents (pushClick "site" "https://github.com/u/r" "" "" "tokenA" "/vault" ""
        ⟨none, "", ""⟩ ⟨none, "", ""⟩ ⟨none, "main\n", ""⟩ ⟨none, "", ""⟩) =
      nonExecEvents (pushClick "site" "https://github.com/u/r" "" "" "tokenB" "/vault" ""
        ⟨none, "", ""⟩ ⟨none, "", ""⟩ ⟨none, "main\n", ""⟩ ⟨none, "", ""⟩) ∧
     persistedValues (pushClick "site" "https://github.com/u/r" "" "" "tokenA" "/vault" ""
        ⟨none, "", ""⟩ ⟨none, "", ""⟩ ⟨none, "main\n", ""⟩ ⟨none, "", ""⟩) = [] ∧
     (∃ pre c1 c2,
       execCmds (pushClick "site" "https://github.com/u/r" "" "" "tokenA" "/vault" ""
         ⟨none, "", ""⟩ ⟨none, "", ""⟩ ⟨none, "main\n", ""⟩ ⟨none, "", ""⟩) = pre ++ [c1] ∧
       execCmds (pushClick "site" "https://github.com/u/r" "" "" "tokenB" "/vault" ""
         ⟨none, "", ""⟩ ⟨none, "", ""⟩ ⟨none, "main\n", ""⟩ ⟨none, "", ""⟩) = pre ++ [c2])) :=
  ⟨⟨by decide, by decide, by decide, by decide, by decide⟩,
   publish_token_noninterference "site" "https://github.com/u/r" "" "" "/vault" ""
     "tokenA" "tokenB" ⟨none, "", ""⟩ ⟨none, "", ""⟩ ⟨none, "main\n", ""⟩ ⟨none, "", ""⟩
     (by decide) (by decide) (by decide) (by decide) (by decide)⟩
